import Mathlib

/-!
# Client-side image ingestion pipeline: a shallow embedding

This file embeds the image ingestion pipeline of the `UploadDropzone`
component (two variants found in the repository: a multi-pass version with
an adaptive shrink loop, and an earlier single-pass version) and proves the
specified properties about it.

JavaScript strings are modelled as `List Char`; JavaScript numbers are
modelled as `ℚ` (for qualities, scales and MB values) and `ℕ` (for pixel
dimensions and byte counts, which the code keeps integral).  Platform
operations that are opaque to the component (`createImageBitmap`, the
image-element decoder, `canvas.getContext`, `canvas.toBlob`,
`FileReader.readAsDataURL`) are supplied by an explicit environment record,
so that each claim quantifies over all possible platform behaviours.
-/

namespace PhantomCMS

/-- JavaScript strings, modelled as character lists. -/
abbrev JStr := List Char

/-- Coerce a Lean string literal to the JS-string model. -/
def jstr (s : String) : JStr := s.data

def isSpaceChar (c : Char) : Bool := c == ' ' || c == '\t' || c == '\n' || c == '\r'

/-- JS String.prototype.split with a single-character separator. -/
def jsSplit (sep : Char) : JStr → List JStr
  | [] => [[]]
  | c :: rest =>
    let r := jsSplit sep rest
    if c == sep then [] :: r
    else (c :: r.headD []) :: r.tail

/-- JS String.prototype.trim. -/
def jsTrim (s : JStr) : JStr :=
  ((s.dropWhile isSpaceChar).reverse.dropWhile isSpaceChar).reverse

/-- JS String.prototype.toLowerCase (ASCII suffices for the strings involved). -/
def jsToLower (s : JStr) : JStr := s.map Char.toLower

/-- JS String.prototype.endsWith. -/
def jsEndsWith (s suf : JStr) : Bool := List.isSuffixOf suf s

/-- JS String.prototype.startsWith. -/
def jsStartsWith (s p : JStr) : Bool := List.isPrefixOf p s

/-- JavaScript Math.round on rationals: floor of x + 1/2. -/
def jsRound (x : ℚ) : ℤ := ⌊x + 1/2⌋

/-! ## Data model -/

/-- A file-like handle as the component sees it: filename, declared MIME
type, and byte length (`File.name`, `File.type`, `File.size`). -/
structure JsFile where
  name : JStr
  type : JStr
  size : ℕ
deriving DecidableEq

/-- A decoded pixel surface (an `ImageBitmap`): width and height in px. -/
structure Surface where
  width : ℕ
  height : ℕ
deriving DecidableEq

/-- The binary output of one encode attempt (a `Blob`): its byte length and
an abstract identity for its bytes (two equal `content` values stand for
bit-identical blobs). -/
structure EncBlob where
  size : ℕ
  content : ℕ
deriving DecidableEq

/-- The transportable data-URL string, kept abstract. -/
abbrev DataUrl := ℕ

/-- The platform environment: results of the opaque browser calls the
component makes.  Each field is the (deterministic) response of the
platform to one kind of call. -/
structure Env where
  /-- Result of `createImageBitmap(file)`: `none` means it throws. -/
  primaryDecode : Option Surface
  /-- Result of the image-element fallback load (`img.decode()` plus its
  natural dimensions): `none` means the load/decode throws. -/
  imgElementDecode : Option Surface
  /-- Whether `canvas.getContext("2d")` returns a context. -/
  canvasCtx : Bool
  /-- Whether `createImageBitmap(canvas)` in the fallback path succeeds. -/
  canvasBitmapOk : Bool
  /-- Result of `canvas.toBlob` for a canvas of the given width and height,
  a target MIME type, and the quality argument (`none` when the quality
  argument was omitted, i.e. for PNG): `none` means `toBlob` yields null. -/
  encode : ℕ → ℕ → JStr → Option ℚ → Option EncBlob
  /-- Result of `FileReader.readAsDataURL` on a blob: `none` means the
  reader errors. -/
  readDataUrl : EncBlob → Option DataUrl

/-- Terminal result of one `handleFile` invocation, as observable by the
user and the caller. -/
inductive Outcome where
  | unsupportedType : Outcome
  | originalTooLarge : ℚ → ℚ → Outcome
  | processedTooLarge : ℚ → ℚ → Outcome
  | processError : Outcome
  | success : DataUrl → Outcome
deriving DecidableEq

/-- One full run of `handleFile`: its outcome, how many times decode
(`decodeToBitmap` / `createImageBitmap`) was invoked, and the arguments of
every `onChange` call made. -/
structure RunResult where
  outcome : Outcome
  decodes : ℕ
  onChangeCalls : List DataUrl
deriving DecidableEq

/-! ## Helpers shared by both variants (identical source text in both) -/

/-- `bytesToMB`: `Math.round((bytes / 1024 / 1024) * 10) / 10`. -/
def bytesToMB (bytes : ℕ) : ℚ := (jsRound ((bytes : ℚ) / 1024 / 1024 * 10) : ℚ) / 10

/-- `parseAccept`: split on commas, trim, lowercase, drop empties. -/
def parseAccept (accept : JStr) : List JStr :=
  ((jsSplit (',') accept).map (fun s => jsToLower (jsTrim s))).filter
    (fun s => s ≠ [])

/-- The per-rule matcher in the `rules.some(...)` callback of
`isFileAccepted`: extension rules match the lowercased filename suffix,
all other rules must equal the lowercased MIME type. -/
def ruleMatches (file : JsFile) (rule : JStr) : Bool :=
  if jsStartsWith rule (jstr ".") then jsEndsWith (jsToLower file.name) rule
  else jsToLower file.type == rule

/-- `isFileAccepted`: when the rules contain `"image/*"` the answer is
whether the declared MIME starts with `"image/"`; otherwise some rule must
match. -/
def isFileAccepted (file : JsFile) (accept : JStr) : Bool :=
  let rules := parseAccept accept
  if rules.contains (jstr "image/*") then jsStartsWith file.type (jstr "image/")
  else rules.any (ruleMatches file)

/-- The quality argument handed to `canvas.toBlob`:
`outputType === "image/png" ? undefined : quality`. -/
def encodeQualityArg (outputType : JStr) (quality : ℚ) : Option ℚ :=
  if outputType == jstr "image/png" then none else some quality

/-- `const scale = bitmap.width > maxWidth ? maxWidth / bitmap.width : 1`. -/
def scaleFor (w maxWidth : ℕ) : ℚ :=
  if w > maxWidth then (maxWidth : ℚ) / (w : ℚ) else 1

/-- `Math.round(dimension * scale)` as a natural number. -/
def roundedDim (d : ℕ) (scale : ℚ) : ℕ := (jsRound ((d : ℚ) * scale)).toNat

/-! ## Multi-pass variant (`src/components/common/UploadDropzone.tsx`) -/

namespace MultiPass

/-- `decodeToBitmap`: try `createImageBitmap(file)`; on throw, fall back to
an image-element load drawn into a canvas and converted to a bitmap. -/
def decodeToBitmap (env : Env) : Option Surface :=
  match env.primaryDecode with
  | some bmp => some bmp
  | none =>
    match env.imgElementDecode with
    | none => none
    | some img =>
      if env.canvasCtx then
        if env.canvasBitmapOk then some img else none
      else none

/-- The target dimensions computed inside `renderCompressed`:
`Math.max(1, Math.round(dimension * scale))` for width and height. -/
def renderDims (w h maxWidth : ℕ) : ℕ × ℕ :=
  (max 1 (roundedDim w (scaleFor w maxWidth)), max 1 (roundedDim h (scaleFor w maxWidth)))

/-- `renderCompressed`: decode, compute target dimensions, draw on a fresh
canvas, encode via `canvas.toBlob`.  `none` models any throw inside. -/
def renderCompressed (env : Env) (maxWidth : ℕ) (outputType : JStr) (quality : ℚ) :
    Option EncBlob :=
  match decodeToBitmap env with
  | none => none
  | some bitmap =>
    let dims := renderDims bitmap.width bitmap.height maxWidth
    if env.canvasCtx then
      env.encode dims.1 dims.2 outputType (encodeQualityArg outputType quality)
    else none

/-- `const minQuality = 0.5`. -/
def minQuality : ℚ := 5/10

/-- `const minWidth = 900`. -/
def minWidth : ℕ := 900

/-- The quality update of the shrink loop:
`Math.max(minQuality, currentQuality - 0.08)`. -/
def qualityNext (q : ℚ) : ℚ := max minQuality (q - 8/100)

/-- The width update of the shrink loop:
`Math.max(minWidth, Math.round(currentMaxWidth * 0.85))`. -/
def widthNext (w : ℕ) : ℕ := max minWidth (jsRound ((w : ℚ) * (85/100))).toNat

/-- How many quality-reduction steps the loop can still take from quality
`q` before reaching the floor (a termination measure component). -/
def qMeasure (q : ℚ) : ℕ := (⌈(q - minQuality) * (100/8)⌉).toNat

/-- A fuel amount sufficient for the shrink loop to run to completion from
width `w` and quality `q` (proved sufficient below). -/
def shrinkFuel (w : ℕ) (q : ℚ) : ℕ := qMeasure q + (w - minWidth) + 1

/-- The `while (blob.size > maxOutputSize)` loop of `handleFile`, with
explicit fuel.  Arguments after the fuel are the loop state: current
width, current quality, and the blob from the latest encode.  The value is
`none` when the fuel ran out, otherwise `some (r, n)` where `n` counts the
re-render calls performed by the loop and `r` is `none` when a re-render
threw (propagating to the catch block) or `some (w, q, blob)` with the
final loop state: the loop leaves it either because the blob fits or
because neither quality nor width may shrink further (`break`). -/
def shrinkLoopF (env : Env) (outputType : JStr) (maxOutputSize : ℕ) :
    ℕ → ℕ → ℚ → EncBlob → Option ((Option (ℕ × ℚ × EncBlob)) × ℕ)
  | 0, _, _, _ => none
  | fuel + 1, w, q, blob =>
    if blob.size ≤ maxOutputSize then some (some (w, q, blob), 0)
    else if outputType ≠ jstr "image/png" ∧ minQuality < q then
      match renderCompressed env w outputType (qualityNext q) with
      | none => some (none, 1)
      | some b =>
        (shrinkLoopF env outputType maxOutputSize fuel w (qualityNext q) b).map
          (fun r => (r.1, r.2 + 1))
    else if minWidth < w then
      match renderCompressed env (widthNext w) outputType q with
      | none => some (none, 1)
      | some b =>
        (shrinkLoopF env outputType maxOutputSize fuel (widthNext w) q b).map
          (fun r => (r.1, r.2 + 1))
    else some (some (w, q, blob), 0)

/-- The shrink loop run with sufficient fuel (the fallback value is never
reached, as proved by `shrinkLoopF_terminates`). -/
def shrinkLoop (env : Env) (outputType : JStr) (maxOutputSize : ℕ)
    (w : ℕ) (q : ℚ) (blob : EncBlob) : (Option (ℕ × ℚ × EncBlob)) × ℕ :=
  (shrinkLoopF env outputType maxOutputSize (shrinkFuel w q) w q blob).getD (none, 0)

/-- The component props the pipeline reads (multi-pass variant). -/
structure Props where
  accept : JStr
  maxSize : ℕ
  maxWidth : ℕ
  outputType : JStr
  quality : ℚ
  maxOutputSize : ℕ
deriving DecidableEq

/-- The default prop values of the multi-pass variant. -/
def defaultProps : Props :=
  ⟨jstr "image/png,image/jpeg,image/webp", 31457280, 1400, jstr "image/jpeg",
    82/100, 1572864⟩

/-- `handleFile` of the multi-pass variant: type filter, size guard,
initial render, adaptive shrink loop, transport encode, `onChange`. -/
def handleFile (env : Env) (p : Props) (file : JsFile) : RunResult :=
  if ¬ isFileAccepted file p.accept then ⟨Outcome.unsupportedType, 0, []⟩
  else if p.maxSize < file.size then
    ⟨Outcome.originalTooLarge (bytesToMB p.maxSize) (bytesToMB file.size), 0, []⟩
  else
    match renderCompressed env p.maxWidth p.outputType p.quality with
    | none => ⟨Outcome.processError, 1, []⟩
    | some blob =>
      match shrinkLoop env p.outputType p.maxOutputSize p.maxWidth p.quality blob with
      | (none, n) => ⟨Outcome.processError, 1 + n, []⟩
      | (some (_, _, finalBlob), n) =>
        match env.readDataUrl finalBlob with
        | none => ⟨Outcome.processError, 1 + n, []⟩
        | some url => ⟨Outcome.success url, 1 + n, [url]⟩

/-- `handleDrop`: run the pipeline on `e.dataTransfer.files?.[0]` only. -/
def handleDrop (env : Env) (p : Props) (files : List JsFile) : List RunResult :=
  match files.head? with
  | some f => [handleFile env p f]
  | none => []

/-- `handleChange`: run the pipeline on `e.target.files?.[0]` only. -/
def handleChange (env : Env) (p : Props) (files : List JsFile) : List RunResult :=
  match files.head? with
  | some f => [handleFile env p f]
  | none => []

end MultiPass

/-! ## Single-pass variant (the earlier `UploadDropzone` revision) -/

namespace SinglePass

/-- The target dimensions computed inside `compressAndResizeImage`:
`Math.round(dimension * scale)` for width and height — unlike the
multi-pass `renderDims`, there is no `Math.max(1, ...)` clamp. -/
def targetDims (w h maxWidth : ℕ) : ℕ × ℕ :=
  (roundedDim w (scaleFor w maxWidth), roundedDim h (scaleFor w maxWidth))

/-- `compressAndResizeImage`: decode via `createImageBitmap` only (no
fallback), compute target dimensions (no 1px clamp), draw, encode. -/
def compressAndResizeImage (env : Env) (maxWidth : ℕ) (outputType : JStr)
    (quality : ℚ) : Option EncBlob :=
  match env.primaryDecode with
  | none => none
  | some bitmap =>
    let targetW := (targetDims bitmap.width bitmap.height maxWidth).1
    let targetH := (targetDims bitmap.width bitmap.height maxWidth).2
    if env.canvasCtx then
      env.encode targetW targetH outputType (encodeQualityArg outputType quality)
    else none

/-- The component props the pipeline reads (single-pass variant). -/
structure Props where
  accept : JStr
  maxSize : ℕ
  maxProcessedSize : ℕ
  maxWidth : ℕ
  outputType : JStr
  quality : ℚ
deriving DecidableEq

/-- The default prop values of the single-pass variant. -/
def defaultProps : Props :=
  ⟨jstr "image/png,image/jpeg,image/webp,.png,.jpg,.jpeg,.webp", 31457280,
    12582912, 1400, jstr "image/jpeg", 82/100⟩

/-- `handleFile` of the single-pass variant: type filter, size guard, one
compress/resize pass, processed-size guard, transport encode, `onChange`. -/
def handleFile (env : Env) (p : Props) (file : JsFile) : RunResult :=
  if ¬ isFileAccepted file p.accept then ⟨Outcome.unsupportedType, 0, []⟩
  else if p.maxSize < file.size then
    ⟨Outcome.originalTooLarge (bytesToMB p.maxSize) (bytesToMB file.size), 0, []⟩
  else
    match compressAndResizeImage env p.maxWidth p.outputType p.quality with
    | none => ⟨Outcome.processError, 1, []⟩
    | some processedBlob =>
      if p.maxProcessedSize < processedBlob.size then
        ⟨Outcome.processedTooLarge (bytesToMB processedBlob.size)
          (bytesToMB p.maxProcessedSize), 1, []⟩
      else
        match env.readDataUrl processedBlob with
        | none => ⟨Outcome.processError, 1, []⟩
        | some url => ⟨Outcome.success url, 1, [url]⟩

/-- `handleDrop`: run the pipeline on `e.dataTransfer.files?.[0]` only. -/
def handleDrop (env : Env) (p : Props) (files : List JsFile) : List RunResult :=
  match files.head? with
  | some f => [handleFile env p f]
  | none => []

/-- `handleChange`: run the pipeline on `e.target.files?.[0]` only. -/
def handleChange (env : Env) (p : Props) (files : List JsFile) : List RunResult :=
  match files.head? with
  | some f => [handleFile env p f]
  | none => []

end SinglePass

/-! ## The Type Filter as the specification words it (for comparison) -/

/-- Modelled from the spec: the Type Filter acceptance rule as stated in
spec §4.1 — accept iff at least one rule matches, where a wildcard rule
matches files of its top-level category, an extension rule matches a
filename suffix, and a MIME rule matches the declared MIME exactly. -/
def specTypeFilterAccepts (file : JsFile) (accept : JStr) : Bool :=
  let rules := parseAccept accept
  let fileName := jsToLower file.name
  let mime := jsToLower file.type
  rules.any fun rule =>
    if jsEndsWith rule (jstr "/*") then jsStartsWith mime (rule.dropLast)
    else if jsStartsWith rule (jstr ".") then jsEndsWith fileName rule
    else mime == rule

/-! ## Arithmetic helper lemmas -/

lemma jsRound_natCast (n : ℕ) : jsRound (n : ℚ) = n := by
  unfold jsRound
  rw [Int.floor_eq_iff]
  constructor
  · push_cast; linarith
  · push_cast; linarith

lemma jsRound_le_of_le {x y : ℚ} (h : x ≤ y) : jsRound x ≤ jsRound y :=
  Int.floor_le_floor (by linarith)

lemma roundedDim_le_self (d : ℕ) {s : ℚ} (hs : s ≤ 1) : roundedDim d s ≤ d := by
  unfold roundedDim
  have h1 : (d : ℚ) * s ≤ (d : ℚ) := mul_le_of_le_one_right (by positivity) hs
  have h2 : jsRound ((d : ℚ) * s) ≤ jsRound (d : ℚ) := jsRound_le_of_le h1
  rw [jsRound_natCast] at h2
  exact Int.toNat_le.mpr h2

lemma roundedDim_one (d : ℕ) : roundedDim d 1 = d := by
  unfold roundedDim
  rw [mul_one, jsRound_natCast, Int.toNat_natCast]

lemma scaleFor_nonneg (w maxW : ℕ) : 0 ≤ scaleFor w maxW := by
  unfold scaleFor; split <;> positivity

lemma scaleFor_le_one (w maxW : ℕ) : scaleFor w maxW ≤ 1 := by
  unfold scaleFor
  split
  · next h =>
    apply div_le_one_of_le₀
    · exact_mod_cast Nat.le_of_lt h
    · positivity
  · exact le_refl 1

lemma scaleFor_eq_one {w maxW : ℕ} (h : w ≤ maxW) : scaleFor w maxW = 1 := by
  unfold scaleFor
  rw [if_neg (by omega)]

lemma scaleFor_eq_min {w : ℕ} (maxW : ℕ) (hw : 0 < w) :
    scaleFor w maxW = min 1 ((maxW : ℚ) / (w : ℚ)) := by
  unfold scaleFor
  split
  · next h =>
    rw [min_eq_right]
    apply le_of_lt
    rw [div_lt_one (by exact_mod_cast hw)]
    exact_mod_cast h
  · next h =>
    rw [min_eq_left]
    rw [le_div_iff₀ (by exact_mod_cast hw), one_mul]
    exact_mod_cast Nat.le_of_not_lt h

namespace MultiPass

lemma qualityNext_ge (q : ℚ) : minQuality ≤ qualityNext q := le_max_left _ _

lemma widthNext_ge (w : ℕ) : minWidth ≤ widthNext w := le_max_left _ _

lemma qMeasure_minQuality : qMeasure minQuality = 0 := by
  unfold qMeasure
  norm_num

lemma qMeasure_pos {q : ℚ} (h : minQuality < q) : 0 < qMeasure q := by
  unfold qMeasure
  have h1 : (0 : ℚ) < (q - minQuality) * (100/8) := by
    apply mul_pos (by linarith) (by norm_num)
  have h2 : 0 < ⌈(q - minQuality) * (100/8)⌉ := Int.ceil_pos.mpr h1
  omega

lemma qMeasure_next_lt {q : ℚ} (h : minQuality < q) :
    qMeasure (qualityNext q) < qMeasure q := by
  unfold qualityNext
  rcases le_or_lt (q - 8/100) minQuality with hle | hlt
  · rw [max_eq_left hle, qMeasure_minQuality]
    exact qMeasure_pos h
  · rw [max_eq_right hlt.le]
    unfold qMeasure
    have harg : (q - 8/100 - minQuality) * (100/8) = (q - minQuality) * (100/8) - 1 := by
      ring
    rw [harg, Int.ceil_sub_one]
    have h1 : (1 : ℤ) < ⌈(q - minQuality) * (100/8)⌉ := by
      apply Int.lt_ceil.mpr
      push_cast
      nlinarith [hlt]
    omega

lemma jsRound_mul_85_100 (w : ℕ) :
    jsRound ((w : ℚ) * (85/100)) = ((85 * w + 50) / 100 : ℕ) := by
  have hdm := Nat.div_add_mod (85 * w + 50) 100
  have hml : (85 * w + 50) % 100 < 100 := Nat.mod_lt _ (by norm_num)
  unfold jsRound
  rw [Int.floor_eq_iff]
  have harg : (w : ℚ) * (85/100) + 1/2 = ((85 * w + 50 : ℕ) : ℚ) / 100 := by
    push_cast; ring
  constructor
  · rw [harg, le_div_iff₀ (by norm_num)]
    push_cast
    have : ((85 * w + 50) / 100) * 100 ≤ 85 * w + 50 := by omega
    exact_mod_cast this
  · rw [harg, div_lt_iff₀ (by norm_num)]
    push_cast
    have : 85 * w + 50 < ((85 * w + 50) / 100 + 1) * 100 := by omega
    exact_mod_cast this

lemma widthNext_eq (w : ℕ) : widthNext w = max minWidth ((85 * w + 50) / 100) := by
  unfold widthNext
  rw [jsRound_mul_85_100, Int.toNat_natCast]

/-- The unfolding equation of `shrinkLoopF` for one unit of fuel. -/
lemma shrinkLoopF_succ (env : Env) (t : JStr) (M fuel w : ℕ) (q : ℚ) (blob : EncBlob) :
    shrinkLoopF env t M (fuel + 1) w q blob =
      if blob.size ≤ M then some (some (w, q, blob), 0)
      else if t ≠ jstr "image/png" ∧ minQuality < q then
        match renderCompressed env w t (qualityNext q) with
        | none => some (none, 1)
        | some b =>
          (shrinkLoopF env t M fuel w (qualityNext q) b).map (fun r => (r.1, r.2 + 1))
      else if minWidth < w then
        match renderCompressed env (widthNext w) t q with
        | none => some (none, 1)
        | some b =>
          (shrinkLoopF env t M fuel (widthNext w) q b).map (fun r => (r.1, r.2 + 1))
      else some (some (w, q, blob), 0) := rfl

lemma widthNext_lt {w : ℕ} (h : minWidth < w) : widthNext w < w := by
  rw [widthNext_eq]
  have h1 : (85 * w + 50) / 100 < w := by
    rw [Nat.div_lt_iff_lt_mul (by norm_num)]
    unfold minWidth at h
    omega
  unfold minWidth at h ⊢
  omega

end MultiPass

/-! ## C1 and C2: the adaptive shrink loop -/

/-- C2: the adaptive shrink loop of the multi-pass `handleFile` terminates
after finitely many iterations for every environment (i.e. for every
sequence of encoded blob sizes): with the hard-coded step 0.08, shrink
factor 0.85 and floors 0.5 / 900, any fuel exceeding
`qMeasure q + (w - minWidth)` lets the loop run to completion, because each
iteration strictly decreases the quality measure or the width and both are
bounded below by their floors. -/
theorem claim2_shrink_loop_terminates (env : Env) (t : JStr) (M : ℕ) :
    ∀ (fuel w : ℕ) (q : ℚ) (blob : EncBlob),
      MultiPass.qMeasure q + (w - MultiPass.minWidth) < fuel →
      (MultiPass.shrinkLoopF env t M fuel w q blob).isSome = true := by
  intro fuel
  induction fuel with
  | zero =>
    intro w q b h
    exact absurd h (Nat.not_lt_zero _)
  | succ n ih =>
    intro w q b h
    simp only [MultiPass.shrinkLoopF]
    split
    · rfl
    · split
      · next hcond =>
        rcases hr : MultiPass.renderCompressed env w t (MultiPass.qualityNext q) with _ | b'
        · simp [hr]
        · simp only [hr, Option.isSome_map']
          apply ih
          have := MultiPass.qMeasure_next_lt hcond.2
          omega
      · split
        · next hcond2 hw =>
          rcases hr : MultiPass.renderCompressed env (MultiPass.widthNext w) t q with _ | b'
          · simp [hr]
          · simp only [hr, Option.isSome_map']
            apply ih
            have h1 := MultiPass.widthNext_lt hw
            have h2 := MultiPass.widthNext_ge w
            omega
        · rfl

/-- Environment used by the loop witnesses: the first encode already fits. -/
def fitsEnv : Env :=
  ⟨some ⟨200, 100⟩, none, true, true, fun _ _ _ _ => some ⟨0, 0⟩, fun b => some b.content⟩

theorem claim2_witness :
    MultiPass.qMeasure (82/100) + (1400 - MultiPass.minWidth) < 505 ∧
    (MultiPass.shrinkLoopF fitsEnv (jstr "image/jpeg") 1572864 505 1400 (82/100)
      ⟨0, 0⟩).isSome = true := by
  have hb : MultiPass.qMeasure (82/100) + (1400 - MultiPass.minWidth) < 505 := by
    have h4 : MultiPass.qMeasure (82/100) = 4 := by
      unfold MultiPass.qMeasure MultiPass.minQuality
      norm_num
      rfl
    rw [h4]
    unfold MultiPass.minWidth
    omega
  exact ⟨hb, claim2_shrink_loop_terminates fitsEnv (jstr "image/jpeg") 1572864 505 1400
    (82/100) ⟨0, 0⟩ hb⟩

/-- C1: the working quality and width of the adaptive shrink loop never go
below their floors.  Both updates clamp at the floor (`minQuality = 0.5`,
`minWidth = 900`), and from any initial state at or above the floors every
final loop state — the (width, quality) pair at which the delivered blob
was encoded — is at or above the floors, for any fuel and any platform
environment. -/
theorem claim1_shrink_loop_floors (env : Env) (t : JStr) (M : ℕ) :
    (∀ q : ℚ, MultiPass.minQuality ≤ MultiPass.qualityNext q) ∧
    (∀ w : ℕ, MultiPass.minWidth ≤ MultiPass.widthNext w) ∧
    (∀ (fuel w : ℕ) (q : ℚ) (blob : EncBlob) (n w' : ℕ) (q' : ℚ) (b' : EncBlob),
       MultiPass.minWidth ≤ w → MultiPass.minQuality ≤ q →
       MultiPass.shrinkLoopF env t M fuel w q blob = some (some (w', q', b'), n) →
       MultiPass.minWidth ≤ w' ∧ MultiPass.minQuality ≤ q') := by
  refine ⟨MultiPass.qualityNext_ge, MultiPass.widthNext_ge, ?_⟩
  intro fuel
  induction fuel with
  | zero =>
    intro w q b n w' q' b' _ _ hrun
    simp [MultiPass.shrinkLoopF] at hrun
  | succ m ih =>
    intro w q b n w' q' b' hw hq hrun
    rw [MultiPass.shrinkLoopF] at hrun
    split at hrun
    · simp only [Option.some.injEq, Prod.mk.injEq] at hrun
      obtain ⟨⟨rfl, rfl, rfl⟩, rfl⟩ := hrun
      exact ⟨hw, hq⟩
    · split at hrun
      · rcases hr : MultiPass.renderCompressed env w t (MultiPass.qualityNext q)
          with _ | bNew
        · rw [hr] at hrun
          simp at hrun
        · rw [hr] at hrun
          rcases Option.map_eq_some'.mp hrun with ⟨⟨res0, n0⟩, hrun0, heq⟩
          simp only [Prod.mk.injEq] at heq
          rw [heq.1] at hrun0
          exact ih w (MultiPass.qualityNext q) bNew n0 w' q' b' hw
            (MultiPass.qualityNext_ge q) hrun0
      · split at hrun
        · rcases hr : MultiPass.renderCompressed env (MultiPass.widthNext w) t q
            with _ | bNew
          · rw [hr] at hrun
            simp at hrun
          · rw [hr] at hrun
            rcases Option.map_eq_some'.mp hrun with ⟨⟨res0, n0⟩, hrun0, heq⟩
            simp only [Prod.mk.injEq] at heq
            rw [heq.1] at hrun0
            exact ih (MultiPass.widthNext w) q bNew n0 w' q' b'
              (MultiPass.widthNext_ge w) hq hrun0
        · simp only [Option.some.injEq, Prod.mk.injEq] at hrun
          obtain ⟨⟨rfl, rfl, rfl⟩, rfl⟩ := hrun
          exact ⟨hw, hq⟩

theorem claim1_witness :
    MultiPass.minWidth ≤ 1400 ∧ MultiPass.minQuality ≤ (82/100 : ℚ) := by
  have heval : MultiPass.shrinkLoopF fitsEnv (jstr "image/jpeg") 1572864 1 1400 (82/100)
      ⟨0, 0⟩ = some (some (1400, 82/100, ⟨0, 0⟩), 0) := by
    rw [show (1 : ℕ) = 0 + 1 from rfl, MultiPass.shrinkLoopF_succ]
    simp
  exact (claim1_shrink_loop_floors fitsEnv (jstr "image/jpeg") 1572864).2.2 1 1400 (82/100)
    ⟨0, 0⟩ 0 1400 (82/100) ⟨0, 0⟩ (by norm_num [MultiPass.minWidth])
    (by norm_num [MultiPass.minQuality]) heval

/-! ## C6: the resize computation -/

/-- A platform whose encoder records the requested canvas dimensions in
the produced blob (size := width, content := height), making the target
dimensions of an encode attempt observable, with a 3000x1 decoded
surface. -/
def probe6Env : Env :=
  ⟨some ⟨3000, 1⟩, none, true, true, fun w h _ _ => some ⟨w, h⟩,
    fun b => some b.content⟩

lemma targetDims_3000_1 : SinglePass.targetDims 3000 1 1400 = (1400, 0) := by
  unfold SinglePass.targetDims roundedDim scaleFor
  rw [if_pos (by norm_num)]
  norm_num [jsRound]
  rfl

/-- C6 counterexample: the single-pass `compressAndResizeImage` (cited by
the claim) has no 1px floor — a 3000x1 surface at `maxWidth = 1400` is
rendered at `targetHeight = Math.round(1 * 1400/3000) = 0`, and the encode
call observably receives a 1400x0 canvas, contradicting "each floored to
at least 1px". -/
theorem claim6_counterexample :
    SinglePass.targetDims 3000 1 1400 = (1400, 0) ∧
    SinglePass.compressAndResizeImage probe6Env 1400 (jstr "image/jpeg") (82/100) =
      some ⟨1400, 0⟩ := by
  refine ⟨targetDims_3000_1, ?_⟩
  unfold SinglePass.compressAndResizeImage
  show (if probe6Env.canvasCtx then probe6Env.encode (SinglePass.targetDims 3000 1 1400).1
    (SinglePass.targetDims 3000 1 1400).2 (jstr "image/jpeg")
    (encodeQualityArg (jstr "image/jpeg") (82/100)) else none) = some ⟨1400, 0⟩
  rw [targetDims_3000_1]
  rfl

/-- C6 (amended): both variants compute the scale `min(1, maxWidth/width)`
and round each scaled dimension; the multi-pass `renderDims` additionally
floors each dimension to at least 1px, while the single-pass `targetDims`
applies no floor (and can produce 0px); neither variant ever increases a
dimension beyond the source, and both are an exact no-op whenever the
source width does not exceed `maxWidth`. -/
theorem claim6_resize (w h maxWidth : ℕ) (hw : 1 ≤ w) (hh : 1 ≤ h) :
    MultiPass.renderDims w h maxWidth =
      (max 1 (jsRound ((w : ℚ) * min 1 ((maxWidth : ℚ) / (w : ℚ)))).toNat,
       max 1 (jsRound ((h : ℚ) * min 1 ((maxWidth : ℚ) / (w : ℚ)))).toNat) ∧
    1 ≤ (MultiPass.renderDims w h maxWidth).1 ∧
    1 ≤ (MultiPass.renderDims w h maxWidth).2 ∧
    (MultiPass.renderDims w h maxWidth).1 ≤ w ∧
    (MultiPass.renderDims w h maxWidth).2 ≤ h ∧
    (w ≤ maxWidth → MultiPass.renderDims w h maxWidth = (w, h)) ∧
    SinglePass.targetDims w h maxWidth =
      ((jsRound ((w : ℚ) * min 1 ((maxWidth : ℚ) / (w : ℚ)))).toNat,
       (jsRound ((h : ℚ) * min 1 ((maxWidth : ℚ) / (w : ℚ)))).toNat) ∧
    (SinglePass.targetDims w h maxWidth).1 ≤ w ∧
    (SinglePass.targetDims w h maxWidth).2 ≤ h ∧
    (w ≤ maxWidth → SinglePass.targetDims w h maxWidth = (w, h)) := by
  have hsc := scaleFor_eq_min maxWidth (by omega : 0 < w)
  have h1 : roundedDim w (scaleFor w maxWidth) ≤ w :=
    roundedDim_le_self w (scaleFor_le_one _ _)
  have h2 : roundedDim h (scaleFor w maxWidth) ≤ h :=
    roundedDim_le_self h (scaleFor_le_one _ _)
  refine ⟨?_, ?_, ?_, ?_, ?_, ?_, ?_, ?_, ?_, ?_⟩
  · unfold MultiPass.renderDims roundedDim
    rw [hsc]
  · unfold MultiPass.renderDims
    simp only
    omega
  · unfold MultiPass.renderDims
    simp only
    omega
  · unfold MultiPass.renderDims
    simp only
    omega
  · unfold MultiPass.renderDims
    simp only
    omega
  · intro hle
    unfold MultiPass.renderDims
    rw [scaleFor_eq_one hle, roundedDim_one, roundedDim_one]
    rw [Nat.max_eq_right hw, Nat.max_eq_right hh]
  · unfold SinglePass.targetDims roundedDim
    rw [hsc]
  · unfold SinglePass.targetDims
    exact h1
  · unfold SinglePass.targetDims
    exact h2
  · intro hle
    unfold SinglePass.targetDims
    rw [scaleFor_eq_one hle, roundedDim_one, roundedDim_one]

theorem claim6_witness :
    MultiPass.renderDims 200 100 1400 = (200, 100) ∧
    SinglePass.targetDims 200 100 1400 = (200, 100) :=
  ⟨(claim6_resize 200 100 1400 (by norm_num) (by norm_num)).2.2.2.2.2.1 (by norm_num),
   (claim6_resize 200 100 1400 (by norm_num) (by norm_num)).2.2.2.2.2.2.2.2.2
     (by norm_num)⟩

/-! ## C8: two-tier decode -/

/-- A platform where `createImageBitmap(file)` throws but the
image-element fallback path would succeed. -/
def c8Env : Env :=
  ⟨none, some ⟨100, 50⟩, true, true, fun w h _ _ => some ⟨w, h⟩,
    fun b => some b.content⟩

/-- A type-accepted small file for the C8 counterexample run. -/
def c8File : JsFile := ⟨jstr "b.jpg", jstr "image/jpeg", 10⟩

/-- C8 counterexample: on a platform where the primary decoder throws but
the fallback would succeed, the multi-pass `decodeToBitmap` recovers, yet
the single-pass `compressAndResizeImage` (cited by the claim) fails — it
calls `createImageBitmap` with no fallback — and its pipeline ends in the
catch block.  So "failure of the primary decoder alone never fails the
pipeline" is false for the cited single-pass variant. -/
theorem claim8_counterexample :
    MultiPass.decodeToBitmap c8Env = some ⟨100, 50⟩ ∧
    SinglePass.compressAndResizeImage c8Env 1400 (jstr "image/jpeg") (82/100) = none ∧
    (SinglePass.handleFile c8Env SinglePass.defaultProps c8File).outcome =
      Outcome.processError := by
  refine ⟨rfl, rfl, ?_⟩
  decide

/-- C8 (amended): the multi-pass `decodeToBitmap` is two-tier — a
successful `createImageBitmap` answers immediately (fallback not
consulted); when it throws, a successful image-element fallback still
produces the surface; and a `none` result (the `DecodeFailed` outcome)
occurs only when the primary tier threw and the fallback tier also failed
at one of its steps.  The single-pass variant has no second tier: whenever
its `createImageBitmap` throws, `compressAndResizeImage` fails outright. -/
theorem claim8_decode_two_tier (env : Env) :
    (∀ s, env.primaryDecode = some s → MultiPass.decodeToBitmap env = some s) ∧
    (env.primaryDecode = none →
      ∀ s, env.imgElementDecode = some s → env.canvasCtx = true →
        env.canvasBitmapOk = true → MultiPass.decodeToBitmap env = some s) ∧
    (MultiPass.decodeToBitmap env = none →
      env.primaryDecode = none ∧
        (env.imgElementDecode = none ∨ env.canvasCtx = false ∨
          env.canvasBitmapOk = false)) ∧
    (env.primaryDecode = none → ∀ (maxW : ℕ) (t : JStr) (q : ℚ),
      SinglePass.compressAndResizeImage env maxW t q = none) := by
  refine ⟨?_, ?_, ?_, ?_⟩
  · intro s hs
    unfold MultiPass.decodeToBitmap
    rw [hs]
  · intro hp s hi hc hb
    unfold MultiPass.decodeToBitmap
    rw [hp, hi, hc, hb]
    simp
  · intro hnone
    unfold MultiPass.decodeToBitmap at hnone
    rcases hp : env.primaryDecode with _ | s
    · rw [hp] at hnone
      refine ⟨rfl, ?_⟩
      rcases hi : env.imgElementDecode with _ | img
      · exact Or.inl rfl
      · rw [hi] at hnone
        rcases hc : env.canvasCtx
        · exact Or.inr (Or.inl rfl)
        · rw [hc] at hnone
          rcases hb : env.canvasBitmapOk
          · exact Or.inr (Or.inr rfl)
          · rw [hb] at hnone
            simp at hnone
    · rw [hp] at hnone
      simp at hnone
  · intro hp maxW t q
    unfold SinglePass.compressAndResizeImage
    rw [hp]

theorem claim8_witness :
    MultiPass.decodeToBitmap fitsEnv = some ⟨200, 100⟩ ∧
    SinglePass.compressAndResizeImage c8Env 1400 (jstr "image/jpeg") (82/100) = none :=
  ⟨(claim8_decode_two_tier fitsEnv).1 ⟨200, 100⟩ rfl,
   (claim8_decode_two_tier c8Env).2.2.2 rfl 1400 (jstr "image/jpeg") (82/100)⟩

/-! ## C10: only the first file of a drop or picker event is processed -/

/-- C10: a drag-and-drop event or a file-picker change event with several
files invokes the pipeline on exactly the first file; the result list has
a single entry, does not depend on the remaining files, and an empty file
list produces nothing. -/
theorem claim10_first_file_only (env : Env) (pm : MultiPass.Props)
    (ps : SinglePass.Props) (f : JsFile) (rest : List JsFile) :
    MultiPass.handleDrop env pm (f :: rest) = [MultiPass.handleFile env pm f] ∧
    MultiPass.handleChange env pm (f :: rest) = [MultiPass.handleFile env pm f] ∧
    SinglePass.handleDrop env ps (f :: rest) = [SinglePass.handleFile env ps f] ∧
    SinglePass.handleChange env ps (f :: rest) = [SinglePass.handleFile env ps f] ∧
    MultiPass.handleDrop env pm [] = [] ∧ SinglePass.handleDrop env ps [] = [] :=
  ⟨rfl, rfl, rfl, rfl, rfl, rfl⟩

/-! ## C4: the Type Filter -/

/-- A PNG-named file whose declared MIME is not an image type. -/
def c4File : JsFile := ⟨jstr "a.png", jstr "application/pdf", 10⟩

/-- C4 counterexample: against the allow-list `".png,image/*"`, the file
`a.png` with declared MIME `application/pdf` matches the extension rule
(and is accepted by the acceptance predicate as the claim words it), yet
`isFileAccepted` rejects it: the `"image/*"` entry makes the code answer
solely by whether the MIME starts with `"image/"`, ignoring all other
rules. -/
theorem claim4_counterexample :
    jsEndsWith (jsToLower c4File.name) (jstr ".png") = true ∧
    (parseAccept (jstr ".png,image/*")).contains (jstr ".png") = true ∧
    specTypeFilterAccepts c4File (jstr ".png,image/*") = true ∧
    isFileAccepted c4File (jstr ".png,image/*") = false := by
  refine ⟨by decide, by decide, by decide, by decide⟩

/-- C4 (amended): when the parsed allow-list contains the literal
`"image/*"`, `isFileAccepted` accepts exactly the files whose declared
MIME starts with `"image/"` (all other rules are ignored); otherwise it
accepts exactly the files matched by at least one rule — an extension rule
matching the lowercased filename suffix or a MIME rule equal to the
lowercased declared MIME. -/
theorem claim4_type_filter (file : JsFile) (accept : JStr) :
    ((parseAccept accept).contains (jstr "image/*") = true →
      isFileAccepted file accept = jsStartsWith file.type (jstr "image/")) ∧
    ((parseAccept accept).contains (jstr "image/*") = false →
      (isFileAccepted file accept = true ↔
        ∃ rule ∈ parseAccept accept, ruleMatches file rule = true)) := by
  constructor
  · intro hc
    simp only [isFileAccepted]
    rw [if_pos hc]
  · intro hc
    simp only [isFileAccepted]
    rw [if_neg (by rw [hc]; exact Bool.false_ne_true)]
    exact List.any_eq_true

theorem claim4_witness :
    isFileAccepted c4File (jstr ".png,image/*") =
      jsStartsWith c4File.type (jstr "image/") ∧
    (isFileAccepted c4File (jstr ".png") = true ↔
      ∃ rule ∈ parseAccept (jstr ".png"), ruleMatches c4File rule = true) :=
  ⟨(claim4_type_filter c4File (jstr ".png,image/*")).1 (by decide),
   (claim4_type_filter c4File (jstr ".png")).2 (by decide)⟩

/-! ## C5: the pre-decode size guard -/

/-- An oversized file that also fails the type filter. -/
def c5File : JsFile := ⟨jstr "big.pdf", jstr "application/pdf", 40000000⟩

/-- C5 counterexample: a 40MB PDF exceeds the default 30MB `maxSize`, yet
the pipeline rejects it as `UnsupportedType`, not `OriginalTooLarge`,
because the type filter runs first — the claim is not true of every
oversized file. -/
theorem claim5_counterexample :
    MultiPass.defaultProps.maxSize < c5File.size ∧
    (MultiPass.handleFile fitsEnv MultiPass.defaultProps c5File).outcome =
      Outcome.unsupportedType := by
  refine ⟨by decide, by decide⟩

/-- C5 (amended): for every file that passes the type filter and exceeds
`maxSize`, the multi-pass `handleFile` stops with `OriginalTooLarge`
carrying the maximum and actual sizes rendered by `bytesToMB`, with decode
observably un-invoked (decode count 0) and no `onChange` call; and
`bytesToMB` renders exactly `round(bytes / 1048576 * 10) / 10` MB. -/
theorem claim5_size_guard (env : Env) (p : MultiPass.Props) (file : JsFile)
    (hacc : isFileAccepted file p.accept = true) (hsize : p.maxSize < file.size) :
    MultiPass.handleFile env p file =
      ⟨Outcome.originalTooLarge (bytesToMB p.maxSize) (bytesToMB file.size), 0, []⟩ ∧
    ∀ b : ℕ, bytesToMB b = (jsRound ((b : ℚ) / 1048576 * 10) : ℚ) / 10 := by
  constructor
  · unfold MultiPass.handleFile
    simp [hacc, hsize]
  · intro b
    unfold bytesToMB
    have harg : (b : ℚ) / 1024 / 1024 * 10 = (b : ℚ) / 1048576 * 10 := by
      ring
    rw [harg]

/-- A type-accepted file that exceeds the default `maxSize`. -/
def w5File : JsFile := ⟨jstr "huge.jpg", jstr "image/jpeg", 40000000⟩

theorem claim5_witness :
    MultiPass.handleFile fitsEnv MultiPass.defaultProps w5File =
      ⟨Outcome.originalTooLarge (bytesToMB MultiPass.defaultProps.maxSize)
        (bytesToMB w5File.size), 0, []⟩ :=
  (claim5_size_guard fitsEnv MultiPass.defaultProps w5File (by decide) (by decide)).1

/-! ## C7: onChange fires exactly once, and only on success -/

lemma onChangeCalls_eq_multi (env : Env) (pm : MultiPass.Props) (file : JsFile) :
    (MultiPass.handleFile env pm file).onChangeCalls =
      match (MultiPass.handleFile env pm file).outcome with
      | Outcome.success u => [u]
      | _ => [] := by
  unfold MultiPass.handleFile
  split
  · rfl
  split
  · rfl
  split
  · rfl
  split
  · rfl
  split
  · rfl
  · rfl

lemma onChangeCalls_eq_single (env : Env) (ps : SinglePass.Props) (file : JsFile) :
    (SinglePass.handleFile env ps file).onChangeCalls =
      match (SinglePass.handleFile env ps file).outcome with
      | Outcome.success u => [u]
      | _ => [] := by
  unfold SinglePass.handleFile
  split
  · rfl
  split
  · rfl
  split
  · rfl
  split
  · rfl
  split
  · rfl
  · rfl

/-- C7: in both variants, `onChange` is called with the transportable
string exactly once when the run succeeds, and is never called on any
failure path (unsupported type, oversized original, oversized processed
blob, decode/encode/transport errors), so a failing run leaves the
caller's previous value untouched. -/
theorem claim7_onchange_only_on_success (env : Env) (pm : MultiPass.Props)
    (ps : SinglePass.Props) (file : JsFile) :
    (∀ u, (MultiPass.handleFile env pm file).outcome = Outcome.success u →
      (MultiPass.handleFile env pm file).onChangeCalls = [u]) ∧
    ((∀ u, (MultiPass.handleFile env pm file).outcome ≠ Outcome.success u) →
      (MultiPass.handleFile env pm file).onChangeCalls = []) ∧
    (∀ u, (SinglePass.handleFile env ps file).outcome = Outcome.success u →
      (SinglePass.handleFile env ps file).onChangeCalls = [u]) ∧
    ((∀ u, (SinglePass.handleFile env ps file).outcome ≠ Outcome.success u) →
      (SinglePass.handleFile env ps file).onChangeCalls = []) := by
  refine ⟨?_, ?_, ?_, ?_⟩
  · intro u hu
    rw [onChangeCalls_eq_multi, hu]
  · intro hall
    rw [onChangeCalls_eq_multi]
    cases ho : (MultiPass.handleFile env pm file).outcome with
    | success u => exact absurd ho (hall u)
    | unsupportedType => rfl
    | originalTooLarge a b => rfl
    | processedTooLarge a b => rfl
    | processError => rfl
  · intro u hu
    rw [onChangeCalls_eq_single, hu]
  · intro hall
    rw [onChangeCalls_eq_single]
    cases ho : (SinglePass.handleFile env ps file).outcome with
    | success u => exact absurd ho (hall u)
    | unsupportedType => rfl
    | originalTooLarge a b => rfl
    | processedTooLarge a b => rfl
    | processError => rfl

/-- A file rejected by the type filter under both variants' defaults. -/
def c7File : JsFile := ⟨jstr "x.txt", jstr "text/plain", 3⟩

theorem claim7_witness :
    (MultiPass.handleFile fitsEnv MultiPass.defaultProps c7File).onChangeCalls = [] ∧
    (SinglePass.handleFile fitsEnv SinglePass.defaultProps c7File).onChangeCalls = [] := by
  have hm : (MultiPass.handleFile fitsEnv MultiPass.defaultProps c7File).outcome =
      Outcome.unsupportedType := by decide
  have hs : (SinglePass.handleFile fitsEnv SinglePass.defaultProps c7File).outcome =
      Outcome.unsupportedType := by decide
  refine ⟨(claim7_onchange_only_on_success fitsEnv MultiPass.defaultProps
      SinglePass.defaultProps c7File).2.1 ?_,
    (claim7_onchange_only_on_success fitsEnv MultiPass.defaultProps
      SinglePass.defaultProps c7File).2.2.2 ?_⟩
  · intro u h
    rw [hm] at h
    exact Outcome.noConfusion h
  · intro u h
    rw [hs] at h
    exact Outcome.noConfusion h

/-! ## C3: how often decode runs -/

lemma decodeToBitmap_primary {env : Env} {s : Surface}
    (h : env.primaryDecode = some s) : MultiPass.decodeToBitmap env = some s := by
  unfold MultiPass.decodeToBitmap
  rw [h]

/-- Evaluation rule for `renderCompressed` when decode succeeds and a
canvas context is available. -/
lemma renderCompressed_eval (env : Env) (maxW : ℕ) (t : JStr) (q : ℚ) (s : Surface)
    (hdec : MultiPass.decodeToBitmap env = some s) (hctx : env.canvasCtx = true) :
    MultiPass.renderCompressed env maxW t q =
      env.encode (MultiPass.renderDims s.width s.height maxW).1
        (MultiPass.renderDims s.width s.height maxW).2 t (encodeQualityArg t q) := by
  unfold MultiPass.renderCompressed
  rw [hdec]
  simp [hctx]

/-- The file, props and platform of the C3 counterexample run: the first
encode at quality 0.58 is oversized, the re-encode at the floor fits. -/
def c3File : JsFile := ⟨jstr "p.jpg", jstr "image/jpeg", 100⟩

def c3Props : MultiPass.Props :=
  ⟨jstr "image/jpeg", 1000000, 900, jstr "image/jpeg", 58/100, 1000⟩

def c3Env : Env :=
  ⟨some ⟨900, 900⟩, none, true, true,
    fun _ _ _ qArg => if qArg = some ((58:ℚ)/100) then some ⟨2000, 0⟩ else some ⟨500, 1⟩,
    fun b => some b.content⟩

lemma c3_dims : MultiPass.renderDims 900 900 900 = (900, 900) := by
  unfold MultiPass.renderDims
  rw [scaleFor_eq_one (le_refl 900), roundedDim_one]
  decide

lemma c3_render_initial :
    MultiPass.renderCompressed c3Env 900 (jstr "image/jpeg") (58/100) = some ⟨2000, 0⟩ := by
  rw [renderCompressed_eval c3Env 900 (jstr "image/jpeg") (58/100) ⟨900, 900⟩ rfl rfl]
  rw [c3_dims]
  rw [show encodeQualityArg (jstr "image/jpeg") ((58:ℚ)/100) = some (58/100) from by
    unfold encodeQualityArg; rw [if_neg (by decide)]]
  show (if some ((58:ℚ)/100) = some ((58:ℚ)/100) then some (⟨2000, 0⟩ : EncBlob)
    else some ⟨500, 1⟩) = some ⟨2000, 0⟩
  rw [if_pos rfl]

lemma c3_render_second :
    MultiPass.renderCompressed c3Env 900 (jstr "image/jpeg") (1/2) = some ⟨500, 1⟩ := by
  rw [renderCompressed_eval c3Env 900 (jstr "image/jpeg") (1/2) ⟨900, 900⟩ rfl rfl]
  rw [c3_dims]
  rw [show encodeQualityArg (jstr "image/jpeg") ((1:ℚ)/2) = some (1/2) from by
    unfold encodeQualityArg; rw [if_neg (by decide)]]
  show (if some ((1:ℚ)/2) = some ((58:ℚ)/100) then some (⟨2000, 0⟩ : EncBlob)
    else some ⟨500, 1⟩) = some ⟨500, 1⟩
  rw [if_neg (by simp only [Option.some.injEq]; norm_num)]

lemma c3_loop :
    MultiPass.shrinkLoop c3Env (jstr "image/jpeg") 1000 900 (58/100) ⟨2000, 0⟩ =
      (some (900, 1/2, ⟨500, 1⟩), 1) := by
  have hstep2 : MultiPass.shrinkLoopF c3Env (jstr "image/jpeg") 1000 1 900 (1/2) ⟨500, 1⟩
      = some (some (900, 1/2, ⟨500, 1⟩), 0) := by
    rw [show (1:ℕ) = 0 + 1 from rfl, MultiPass.shrinkLoopF_succ]
    rw [if_pos (by decide)]
  have hfuel : MultiPass.shrinkFuel 900 (58/100) = 1 + 1 := by
    unfold MultiPass.shrinkFuel MultiPass.qMeasure MultiPass.minQuality MultiPass.minWidth
    norm_num
  unfold MultiPass.shrinkLoop
  rw [hfuel, MultiPass.shrinkLoopF_succ]
  rw [if_neg (by decide)]
  rw [if_pos ⟨by decide, by norm_num [MultiPass.minQuality]⟩]
  rw [show MultiPass.qualityNext (58/100) = 1/2 from by
    unfold MultiPass.qualityNext MultiPass.minQuality; norm_num]
  simp only [c3_render_second]
  rw [hstep2]
  rfl

/-- The full C3 counterexample run: a successful multi-pass invocation
whose shrink loop iterated once, and which therefore decoded the file
twice. -/
lemma c3_run : MultiPass.handleFile c3Env c3Props c3File = ⟨Outcome.success 1, 2, [1]⟩ := by
  unfold MultiPass.handleFile
  rw [show isFileAccepted c3File c3Props.accept = true from by decide]
  rw [if_neg (fun h => h rfl)]
  rw [if_neg (by decide)]
  show (match MultiPass.renderCompressed c3Env 900 (jstr "image/jpeg") (58/100) with
    | none => (⟨Outcome.processError, 1, []⟩ : RunResult)
    | some blob =>
      match MultiPass.shrinkLoop c3Env (jstr "image/jpeg") 1000 900 (58/100) blob with
      | (none, n) => ⟨Outcome.processError, 1 + n, []⟩
      | (some (_, _, finalBlob), n) =>
        match c3Env.readDataUrl finalBlob with
        | none => ⟨Outcome.processError, 1 + n, []⟩
        | some url => ⟨Outcome.success url, 1 + n, [url]⟩) = ⟨Outcome.success 1, 2, [1]⟩
  simp only [c3_render_initial]
  simp only [c3_loop]
  rfl

/-- C3 counterexample: in the multi-pass variant the source file is *not*
decoded exactly once per invocation — a successful run whose shrink loop
performed one iteration invoked decode twice, because every loop iteration
calls `renderCompressed(file, ...)`, which calls `decodeToBitmap` afresh. -/
theorem claim3_counterexample :
    (MultiPass.handleFile c3Env c3Props c3File).decodes = 2 ∧
    (MultiPass.handleFile c3Env c3Props c3File).outcome = Outcome.success 1 := by
  rw [c3_run]
  exact ⟨rfl, rfl⟩

/-- C3 (amended): within one multi-pass invocation the source file is
decoded once per render/encode attempt, not once overall: one decode for
the initial render plus one more for every shrink-loop iteration, so the
total decode count is `1 + n` where `n` is the number of loop re-renders. -/
theorem claim3_decode_per_attempt (env : Env) (p : MultiPass.Props) (file : JsFile)
    (b : EncBlob)
    (hacc : isFileAccepted file p.accept = true) (hsize : file.size ≤ p.maxSize)
    (hrender : MultiPass.renderCompressed env p.maxWidth p.outputType p.quality = some b) :
    (MultiPass.handleFile env p file).decodes =
      1 + (MultiPass.shrinkLoop env p.outputType p.maxOutputSize p.maxWidth p.quality b).2 := by
  unfold MultiPass.handleFile
  rw [hacc]
  rw [if_neg (fun h => h rfl)]
  rw [if_neg (Nat.not_lt.mpr hsize)]
  rw [hrender]
  rcases hl : MultiPass.shrinkLoop env p.outputType p.maxOutputSize p.maxWidth p.quality b
    with ⟨r, n⟩
  simp only [hl]
  rcases r with _ | ⟨w', q', fb⟩
  · rfl
  · rcases hr2 : env.readDataUrl fb with _ | u
    · simp only [hr2]
    · simp only [hr2]

theorem claim3_witness :
    (MultiPass.handleFile c3Env c3Props c3File).decodes =
      1 + (MultiPass.shrinkLoop c3Env c3Props.outputType c3Props.maxOutputSize
        c3Props.maxWidth c3Props.quality ⟨2000, 0⟩).2 :=
  claim3_decode_per_attempt c3Env c3Props c3File ⟨2000, 0⟩ (by decide) (by decide)
    c3_render_initial

/-! ## C9: the two variants agree on first-encode-fits runs -/

/-- C9: for every accepted, size-conforming file on which the primary
decode succeeds, whose scaled target dimensions are both at least 1px, and
whose first encode at the initial `(maxWidth, quality)` already fits the
output-size target, the multi-pass and single-pass variants (configured
alike) both succeed with the identical data-URL, delivered through a
single `onChange` call, after a single decode. -/
theorem claim9_variants_agree (env : Env) (accept t : JStr) (maxSize maxW M : ℕ)
    (q : ℚ) (file : JsFile) (s : Surface) (blob : EncBlob) (url : DataUrl)
    (hacc : isFileAccepted file accept = true)
    (hsize : file.size ≤ maxSize)
    (hdec : env.primaryDecode = some s)
    (hctx : env.canvasCtx = true)
    (htw : 1 ≤ roundedDim s.width (scaleFor s.width maxW))
    (hth : 1 ≤ roundedDim s.height (scaleFor s.width maxW))
    (henc : env.encode (roundedDim s.width (scaleFor s.width maxW))
      (roundedDim s.height (scaleFor s.width maxW)) t (encodeQualityArg t q) = some blob)
    (hfit : blob.size ≤ M)
    (hread : env.readDataUrl blob = some url) :
    MultiPass.handleFile env ⟨accept, maxSize, maxW, t, q, M⟩ file =
      ⟨Outcome.success url, 1, [url]⟩ ∧
    SinglePass.handleFile env ⟨accept, maxSize, M, maxW, t, q⟩ file =
      ⟨Outcome.success url, 1, [url]⟩ := by
  have hdims : MultiPass.renderDims s.width s.height maxW =
      (roundedDim s.width (scaleFor s.width maxW),
       roundedDim s.height (scaleFor s.width maxW)) := by
    unfold MultiPass.renderDims
    rw [Nat.max_eq_right htw, Nat.max_eq_right hth]
  have hrender : MultiPass.renderCompressed env maxW t q = some blob := by
    rw [renderCompressed_eval env maxW t q s (decodeToBitmap_primary hdec) hctx, hdims]
    exact henc
  constructor
  · unfold MultiPass.handleFile
    simp only [hacc]
    rw [if_neg (fun h => h trivial)]
    rw [if_neg (Nat.not_lt.mpr hsize)]
    simp only [hrender]
    have hloop : MultiPass.shrinkLoop env t M maxW q blob = (some (maxW, q, blob), 0) := by
      unfold MultiPass.shrinkLoop MultiPass.shrinkFuel
      rw [MultiPass.shrinkLoopF_succ]
      rw [if_pos hfit]
      rfl
    simp only [hloop]
    simp only [hread]
  · unfold SinglePass.handleFile
    simp only [hacc]
    rw [if_neg (fun h => h trivial)]
    rw [if_neg (Nat.not_lt.mpr hsize)]
    have hcompress : SinglePass.compressAndResizeImage env maxW t q = some blob := by
      unfold SinglePass.compressAndResizeImage
      rw [hdec]
      simp only [hctx, if_true]
      exact henc
    simp only [hcompress]
    rw [if_neg (Nat.not_lt.mpr hfit)]
    simp only [hread]

/-- A file and surface meeting all of C9's hypotheses under `fitsEnv`. -/
def w9File : JsFile := ⟨jstr "a.jpg", jstr "image/jpeg", 10⟩

theorem claim9_witness :
    MultiPass.handleFile fitsEnv ⟨jstr "image/jpeg", 100, 1400, jstr "image/jpeg",
        82/100, 5⟩ w9File = ⟨Outcome.success 0, 1, [0]⟩ ∧
    SinglePass.handleFile fitsEnv ⟨jstr "image/jpeg", 100, 5, 1400, jstr "image/jpeg",
        82/100⟩ w9File = ⟨Outcome.success 0, 1, [0]⟩ := by
  have hdim : roundedDim 200 (scaleFor 200 1400) = 200 := by
    rw [scaleFor_eq_one (by norm_num), roundedDim_one]
  have hdimh : roundedDim 100 (scaleFor 200 1400) = 100 := by
    rw [scaleFor_eq_one (by norm_num), roundedDim_one]
  exact claim9_variants_agree fitsEnv (jstr "image/jpeg") (jstr "image/jpeg") 100 1400 5
    (82/100) w9File ⟨200, 100⟩ ⟨0, 0⟩ 0 (by decide) (by decide) rfl rfl
    (by rw [hdim]; norm_num) (by rw [hdimh]; norm_num) rfl (by decide) rfl

end PhantomCMS
